import Mathlib

/-!
Shallow embedding of the watch/multiplex engine of src/hikaru/watch.py
(classes Watcher and MultiplexingWatcher), together with theorems checking
the specification's claims about it.

Conventions of the embedding:
* Python ints are modelled by Int, Python strings by String.
* The resource-version cursor is stored exactly as the code stores it: an
  optional string (kwargs of the watch call); conversions use models of
  Python str() and int().
* The external streaming transport is modelled by a list of transport
  responses, one response per open of the underlying watch: each response
  delivers a list of raw event envelopes and then either ends normally
  (idle timeout) or raises an ApiException.
* Fallible operations return Except or an explicit outcome constructor.
-/

namespace Hikaru

/-! ### Models of Python str() and int() on integers -/

/-- Value of a list of decimal digit characters, most significant first,
as produced by Python int() on a digit string. -/
def digitsVal (l : List Char) : Nat :=
  l.foldl (fun a c => 10 * a + (c.toNat - 48)) 0

/-- Test that every character is a decimal digit (the regex class [0-9]). -/
def allDigits : List Char → Bool
  | [] => true
  | c :: t => if c.isDigit then allDigits t else false

/-- Decimal digits of a natural number, least significant first; the fuel
argument bounds the recursion and any fuel at least n is enough. -/
def natToRevDigitsAux : Nat → Nat → List Char
  | 0, _ => []
  | _ + 1, 0 => []
  | fuel + 1, n + 1 => Nat.digitChar ((n + 1) % 10) :: natToRevDigitsAux fuel ((n + 1) / 10)

/-- Decimal digits of a natural number, least significant first. -/
def natToRevDigits (n : Nat) : List Char :=
  natToRevDigitsAux n n

/-- Model of Python str() on a non-negative integer. -/
def pyNatStr (n : Nat) : String :=
  if n = 0 then "0" else String.mk (natToRevDigits n).reverse

/-- Model of Python str() on an int: decimal digits with a leading minus
sign for negative values. -/
def pyStr (i : Int) : String :=
  if i < 0 then "-" ++ pyNatStr i.natAbs else pyNatStr i.natAbs

/-- Model of Python int() on a string: an optional minus sign followed by a
nonempty run of decimal digits; anything else raises, modelled by none. -/
def pyInt? (s : String) : Option Int :=
  match s.data with
  | [] => none
  | c :: rest =>
    if c = '-' then
      if rest ≠ [] ∧ allDigits rest = true then some (-(digitsVal rest : Int)) else none
    else
      if allDigits (c :: rest) = true then some ((digitsVal (c :: rest) : Int)) else none

theorem digitsVal_append_digit (l : List Char) (c : Char) :
    digitsVal (l ++ [c]) = 10 * digitsVal l + (c.toNat - 48) := by
  simp [digitsVal, List.foldl_append]

theorem digitChar_toNat {d : Nat} (h : d < 10) : (Nat.digitChar d).toNat = 48 + d := by
  interval_cases d <;> decide

theorem digitChar_isDigit {d : Nat} (h : d < 10) : (Nat.digitChar d).isDigit = true := by
  interval_cases d <;> decide

theorem natToRevDigitsAux_spec :
    ∀ fuel n, n ≤ fuel →
      digitsVal (natToRevDigitsAux fuel n).reverse = n ∧
      ∀ c ∈ natToRevDigitsAux fuel n, c.isDigit = true := by
  intro fuel
  induction fuel with
  | zero =>
    intro n hn
    have : n = 0 := Nat.le_zero.mp hn
    subst this
    simp [natToRevDigitsAux, digitsVal]
  | succ fuel ih =>
    intro n hn
    match n with
    | 0 => simp [natToRevDigitsAux, digitsVal]
    | m + 1 =>
      have hdiv : (m + 1) / 10 ≤ fuel := by
        have h1 : (m + 1) / 10 < m + 1 := Nat.div_lt_self (Nat.succ_pos m) (by omega)
        omega
      have ihd := ih ((m + 1) / 10) hdiv
      have hmod : (m + 1) % 10 < 10 := Nat.mod_lt _ (by omega)
      constructor
      · simp only [natToRevDigitsAux, List.reverse_cons]
        rw [digitsVal_append_digit, ihd.1, digitChar_toNat hmod]
        have := Nat.div_add_mod (m + 1) 10
        omega
      · intro c hc
        simp only [natToRevDigitsAux, List.mem_cons] at hc
        rcases hc with h | h
        · subst h; exact digitChar_isDigit hmod
        · exact ihd.2 c h

theorem allDigits_of_forall {l : List Char} (h : ∀ c ∈ l, c.isDigit = true) :
    allDigits l = true := by
  induction l with
  | nil => rfl
  | cons c t ih =>
    have hc := h c (List.mem_cons_self c t)
    simp [allDigits, hc]
    exact ih (fun x hx => h x (List.mem_cons_of_mem _ hx))

/-- Round trip: a natural number printed by the model of str() is parsed
back by the model of int(). Stated on the underlying character list. -/
theorem pyNatStr_data_spec (n : Nat) :
    digitsVal (pyNatStr n).data = n ∧ allDigits (pyNatStr n).data = true ∧
      (pyNatStr n).data ≠ [] ∧ ∀ c ∈ (pyNatStr n).data, c.isDigit = true := by
  by_cases h : n = 0
  · subst h; refine ⟨by decide, by decide, by decide, ?_⟩
    intro c hc
    simp [pyNatStr] at hc
    subst hc; decide
  · have hspec := natToRevDigitsAux_spec n n (Nat.le_refl n)
    have hdata : (pyNatStr n).data = (natToRevDigits n).reverse := by
      simp [pyNatStr, h]
    have hmem : ∀ c ∈ (pyNatStr n).data, c.isDigit = true := by
      intro c hc
      rw [hdata, List.mem_reverse] at hc
      exact hspec.2 c hc
    refine ⟨?_, allDigits_of_forall hmem, ?_, hmem⟩
    · rw [hdata]; exact hspec.1
    · rw [hdata]
      intro hcontra
      have h2 : natToRevDigitsAux n n = [] := by
        have := congrArg List.reverse hcontra
        simpa [natToRevDigits] using this
      have h0 := hspec.1
      rw [h2] at h0
      simp [digitsVal] at h0
      exact h (h0.symm)

theorem pyInt?_pyNatStr (n : Nat) : pyInt? (pyNatStr n) = some (n : Int) := by
  obtain ⟨hval, hall, hne, hmem⟩ := pyNatStr_data_spec n
  unfold pyInt?
  match hd : (pyNatStr n).data with
  | [] => exact absurd hd hne
  | c :: rest =>
    have hcd : c.isDigit = true := by
      apply hmem; rw [hd]; exact List.mem_cons_self c rest
    have hcne : ¬(c = '-') := by
      intro h; subst h; simp [Char.isDigit] at hcd
    rw [hd] at hall hval
    simp [hcne, hall, hval]

theorem pyInt?_neg_digits (l : List Char) (hne : l ≠ []) (hall : allDigits l = true) :
    pyInt? (String.mk ('-' :: l)) = some (-(digitsVal l : Int)) := by
  unfold pyInt?
  simp [hne, hall]

/-- Round trip: an int printed by the model of Python str() parses back to
itself with the model of Python int(). -/
theorem pyInt?_pyStr (i : Int) : pyInt? (pyStr i) = some i := by
  by_cases h : i < 0
  · obtain ⟨hval, hall, hne, _⟩ := pyNatStr_data_spec i.natAbs
    have hdata : pyStr i = String.mk ('-' :: (pyNatStr i.natAbs).data) := by
      simp only [pyStr, if_pos h]
      cases hs : pyNatStr i.natAbs with
      | mk l => rfl
    rw [hdata, pyInt?_neg_digits _ hne hall, hval]
    have habs : -((i.natAbs : Int)) = i := by omega
    rw [habs]
  · have habs : ((i.natAbs : Int)) = i := by omega
    simp only [pyStr, if_neg h]
    rw [pyInt?_pyNatStr]
    exact congrArg some habs

/-! ### Model of the rvre regex search -/

/-- Search a character list for the first substring of the shape a left
parenthesis, one or more decimal digits, a right parenthesis, returning the
digit run; model of re.search with Watcher rvre on the reason text. -/
def findParenNumAux : List Char → Option String
  | [] => none
  | c :: rest =>
    if c = '(' then
      let ds := rest.takeWhile Char.isDigit
      if ds ≠ [] ∧ (rest.dropWhile Char.isDigit).head? = some ')' then
        some (String.mk ds)
      else findParenNumAux rest
    else findParenNumAux rest

/-- First parenthesized decimal number embedded in a string, as extracted
by Watcher rvre, group 1. -/
def findParenNum (s : String) : Option String :=
  findParenNumAux s.data

/-- Prefix test on strings; model of Python str.startswith. -/
def startsWithAux : List Char → List Char → Bool
  | [], _ => true
  | _ :: _, [] => false
  | p :: ps, c :: cs => if p = c then startsWithAux ps cs else false

/-- Model of Python s.startswith(pre). -/
def strStartsWith (s pre : String) : Bool :=
  startsWithAux pre.data s.data

/-! ### Watcher construction (Watcher.__init__, watch.py lines 135-239) -/

/-- WatcherDescriptor from hikaru.meta: the endpoint-resolution key naming
the kubernetes API package, module, class and method used to open a watch. -/
structure WatcherDescriptor where
  pkgname : String
  modname : String
  clsname : String
  methname : String
deriving DecidableEq

/-- Watch-capability table carried on a watchable class: the class
attributes namespaced-watcher and watcher consulted by Watcher.__init__. -/
structure WatcherSupport where
  namespaced_watcher : Option WatcherDescriptor
  watcher : Option WatcherDescriptor
deriving DecidableEq

/-- The cls argument of Watcher.__init__: a Python class, with its name,
whether it is a HikaruDocumentBase subclass, its optional watcher-cls
redirection (the capability table of cls watcher-cls when that attribute is
set) and its own capability table. -/
structure KindCls where
  clsname : String
  isHikaruDocSubclass : Bool
  watcher_cls : Option WatcherSupport
  own_support : WatcherSupport
deriving DecidableEq

/-- The capability table Watcher.__init__ actually consults: the one of
cls watcher-cls when that attribute is not None, else the one of cls. -/
def effectiveSupport (cls : KindCls) : WatcherSupport :=
  match cls.watcher_cls with
  | some w => w
  | none => cls.own_support

/-- A value of Python type Union str-or-int, as accepted for resource
versions by Watcher.__init__ and update_resource_version. -/
inductive PyStrOrInt where
  | str (v : String)
  | int (v : Int)
deriving DecidableEq

/-- Model of Python str() applied to a str-or-int value. -/
def pyStrOfUnion : PyStrOrInt → String
  | .str v => v
  | .int v => pyStr v

/-- Python truthiness of an optional string: None and the empty string are
falsy; model of the test if namespace at watch.py line 214. -/
def pyTruthyStr : Option String → Bool
  | none => false
  | some s => if s = "" then false else true

/-- The state of a constructed Watcher: its descriptor, kind identity, the
watch kwargs that matter to streaming (resource_version cursor, timeout,
optional namespace entry), the running flag and the highest observed
resource version (initially the starting value -1). -/
structure Watcher where
  wd : WatcherDescriptor
  cls : String
  resource_version : Option String
  timeout_seconds : Option Int
  kwNamespace : Option String
  run : Bool
  highest_resource_version : Int
deriving DecidableEq

/-- Model of Watcher.__init__: reject a cls that is not a
HikaruDocumentBase subclass; pick the namespaced descriptor when the
namespace argument is truthy, else the cluster-wide one, failing with a
TypeError when the chosen descriptor is absent; otherwise build the watcher
with the stringified resource version, the namespace stored in the kwargs
exactly when it is not None, the running flag down and the highest observed
version at the starting value -1. -/
def watcherInit (cls : KindCls) (ns : Option String) (resource_version : Option PyStrOrInt)
    (timeout_seconds : Option Int) : Except String Watcher :=
  if cls.isHikaruDocSubclass = false then
    .error "cls must be a subclass of HikaruDocumentBase"
  else
    let wcls := effectiveSupport cls
    let wdPick : Except String WatcherDescriptor :=
      if pyTruthyStr ns = true then
        match wcls.namespaced_watcher with
        | none => .error (cls.clsname ++ " has no namespaced watcher support")
        | some d => .ok d
      else
        match wcls.watcher with
        | none => .error (cls.clsname ++ " has no watcher support")
        | some d => .ok d
    match wdPick with
    | .error msg => .error msg
    | .ok d =>
      .ok { wd := d
            cls := cls.clsname
            resource_version := resource_version.map pyStrOfUnion
            timeout_seconds := timeout_seconds
            kwNamespace := ns
            run := false
            highest_resource_version := -1 }

/-- Model of Watcher.update_resource_version: None is rejected with a
RuntimeError; any other value is stringified and stored as the cursor. -/
def update_resource_version (w : Watcher) (new_resource_version : Option PyStrOrInt) :
    Except String Watcher :=
  match new_resource_version with
  | none => .error "resource_version cannot be None"
  | some v => .ok { w with resource_version := some (pyStrOfUnion v) }

/-- Model of Watcher.current_resource_version. -/
def current_resource_version (w : Watcher) : Option String :=
  w.resource_version

/-- Model of Watcher.stop (the k8s-level watch handle is external). -/
def Watcher.stop (w : Watcher) : Watcher :=
  { w with run := false }

/-- Model of BaseWatcher.start. -/
def Watcher.start (w : Watcher) : Watcher :=
  { w with run := true }

/-! ### Watcher.stream (watch.py lines 276-371)

The external transport (kubernetes.watch.Watch.stream) is modelled by a
list of responses, one per open of the underlying watch: each response
delivers raw event envelopes in order and then either ends normally (the
idle timeout) or raises an ApiException. The generator is modelled as a
function from that list to the full observable behaviour of one stream()
call: the open requests it issued (with the cursor each one carried), the
events it yielded, the final watcher state, and how it ended. -/

/-- The structured transport error: an HTTP-like status and a reason text,
as carried by kubernetes.client.ApiException. -/
structure ApiException where
  status : Int
  reason : String
deriving DecidableEq

/-- A raw event envelope delivered by the transport: the event type tag
and the numeric resourceVersion of the deserialized object (deserialization
itself is an external collaborator; only the version number matters to the
engine, via int of the object metadata resourceVersion). -/
structure RawEvent where
  etype : String
  rv : Int
deriving DecidableEq

/-- A WatchEvent as yielded to the consumer: the event type and the
deserialized object, stood for by its envelope. -/
structure WatchEvent where
  etype : String
  obj : RawEvent
deriving DecidableEq

/-- How one transport open ends after its events: normal end (timeout) or
an ApiException raised by the transport. -/
inductive TransportEnd where
  | timeout
  | err (e : ApiException)
deriving DecidableEq

/-- One transport open: the raw events it delivers, then how it ends. -/
structure TransportResponse where
  events : List RawEvent
  ending : TransportEnd
deriving DecidableEq

/-- The two keyword flags of stream(). -/
structure StreamConfig where
  manage_resource_version : Bool
  quit_on_timeout : Bool
deriving DecidableEq

/-- Record of one transport open request issued by stream(): the cursor it
carried (kwargs resource_version at that moment), the highest observed
resource version at that moment, and whether it was the priming probe. -/
structure OpenLog where
  cursor : Option String
  highestAtOpen : Int
  priming : Bool
deriving DecidableEq

/-- How a stream() call ends: normal generator completion (stop or
quit_on_timeout), an ApiException propagated to the caller, the priming
RuntimeError, a ValueError from int() on a non-numeric cursor, or
exhaustion of the modelled transport responses while still looping. -/
inductive StreamOutcome where
  | ended
  | fatal (e : ApiException)
  | runtimeError
  | valueError
  | outOfResponses
deriving DecidableEq

/-- Observable behaviour of one stream() call. -/
structure StreamResult where
  opens : List OpenLog
  yielded : List WatchEvent
  st : Watcher
  outcome : StreamOutcome
deriving DecidableEq

/-- Prefix one open and its yielded events onto a stream result. -/
def consLog (lg : OpenLog) (evs : List WatchEvent) (r : StreamResult) : StreamResult :=
  ⟨lg :: r.opens, evs ++ r.yielded, r.st, r.outcome⟩

/-- The inner for-loop over one transport open (watch.py lines 341-359):
for each delivered envelope, stop without yielding when no longer running,
raise the observed maximum when the envelope's version exceeds it, and
yield the WatchEvent. In this sequential model nothing flips the running
flag mid-loop, so the three isrunning checks collapse to the leading one. -/
def processEvents (w : Watcher) : List RawEvent → Watcher × List WatchEvent
  | [] => (w, [])
  | e :: rest =>
    if w.run = true then
      let w1 := if e.rv > w.highest_resource_version
                then { w with highest_resource_version := e.rv } else w
      let pe := processEvents w1 rest
      (pe.1, ⟨e.etype, e⟩ :: pe.2)
    else (w, [])

/-- The cursor-advance step at the top of the while loop (watch.py lines
335-339): when managing and a cursor is set, parse it with int() (a
non-numeric cursor raises ValueError, modelled by none) and advance it to
the highest observed version when that is larger. -/
def cursorAdvance (cfg : StreamConfig) (w : Watcher) : Option Watcher :=
  if cfg.manage_resource_version = true then
    match w.resource_version with
    | some s =>
      match pyInt? s with
      | none => none
      | some v =>
        some (if w.highest_resource_version > v
              then { w with resource_version := some (pyStr w.highest_resource_version) }
              else w)
    | none => some w
  else some w

/-- The while loop of Watcher.stream (watch.py lines 334-371): check the
running flag, advance the managed cursor, open the transport with the
current config, process the delivered events, then dispatch on the way the
open ended: a normal end re-opens unless quit_on_timeout, and an
ApiException is recovered exactly when its status is 410, the cursor is
managed and the reason embeds a parenthesized number (the new cursor);
otherwise it propagates. -/
def streamLoop (cfg : StreamConfig) : Watcher → List TransportResponse → StreamResult
  | w, resps =>
    if w.run = true then
      match cursorAdvance cfg w with
      | none => ⟨[], [], w, .valueError⟩
      | some w1 =>
        match resps with
        | [] => ⟨[], [], w1, .outOfResponses⟩
        | r :: rest =>
          let lg : OpenLog := ⟨w1.resource_version, w1.highest_resource_version, false⟩
          let pe := processEvents w1 r.events
          match r.ending with
          | .timeout =>
            if pe.1.run = true then
              if cfg.quit_on_timeout = true then ⟨[lg], pe.2, pe.1, .ended⟩
              else consLog lg pe.2 (streamLoop cfg pe.1 rest)
            else ⟨[lg], pe.2, pe.1, .ended⟩
          | .err e =>
            if e.status = 410 ∧ cfg.manage_resource_version = true then
              match findParenNum e.reason with
              | some num =>
                consLog lg pe.2
                  (streamLoop cfg { pe.1 with resource_version := some num } rest)
              | none => ⟨[lg], pe.2, pe.1, .fatal e⟩
            else ⟨[lg], pe.2, pe.1, .fatal e⟩
    else ⟨[], [], w, .ended⟩

/-- Model of Watcher.stream (watch.py lines 276-371): mark the watcher
running; when managing the cursor and no cursor exists, issue the priming
probe with the cursor forced to the string one — an actual event there is
the RuntimeError, a 410 whose reason starts with Expired: and embeds a
parenthesized number installs that number as the cursor, any other error
propagates, and a silent normal end leaves the cursor unset; then run the
main while loop. -/
def streamWatcher (cfg : StreamConfig) (w0 : Watcher) (resps : List TransportResponse) :
    StreamResult :=
  let w := Watcher.start w0
  if cfg.manage_resource_version = true ∧ w.resource_version = none then
    match resps with
    | [] => ⟨[], [], w, .outOfResponses⟩
    | r :: rest =>
      let lg : OpenLog := ⟨some "1", w.highest_resource_version, true⟩
      if r.events = [] then
        match r.ending with
        | .timeout => consLog lg [] (streamLoop cfg w rest)
        | .err e =>
          if e.status = 410 ∧ strStartsWith e.reason "Expired:" = true then
            match findParenNum e.reason with
            | some num =>
              consLog lg [] (streamLoop cfg { w with resource_version := some num } rest)
            | none => ⟨[lg], [], w, .fatal e⟩
          else ⟨[lg], [], w, .fatal e⟩
      else ⟨[lg], [], w, .runtimeError⟩
  else streamLoop cfg w resps

/-! ### MultiplexingWatcher (watch.py lines 374-523)

Membership (the kind-to-Watcher dict) is modelled as an association list
from kind name to a watcher identity; the per-watcher running flags live in
a separate total map so that stopping a member leaves membership itself
untouched, exactly as in the source where the dict holds references and
stop() mutates the referenced objects. The shared queue is a list (FIFO:
put appends, get takes the head). -/

/-- Identity of a member Watcher as the coordinator sees it: its kind name
(watcher.cls, the dict key) and an identity tag for the object. -/
structure MemberW where
  cls : String
  id : Nat
deriving DecidableEq

/-- Exceptions a member's stream can raise into the worker. -/
inductive PyExc where
  | api (e : ApiException)
  | other (msg : String)
deriving DecidableEq

/-- Behaviour of the exception callback on one call: it returns the value
True, returns any other value, or itself raises. -/
inductive CbRes where
  | isTrue
  | notTrue
  | raised
deriving DecidableEq

/-- Update a total flag map at one identity. -/
def setFlagFn (f : Nat → Bool) (i : Nat) (b : Bool) : Nat → Bool :=
  fun j => if j = i then b else f j

/-- Association-list lookup, modelling dict.get. -/
def dictGet : List (String × Nat) → String → Option Nat
  | [], _ => none
  | (k, v) :: t, key => if k = key then some v else dictGet t key

/-- Association-list update, modelling dict item assignment: replace the
binding in place when the key is present, else append it. -/
def dictSet : List (String × Nat) → String → Nat → List (String × Nat)
  | [], key, v => [(key, v)]
  | (k, v0) :: t, key, v => if k = key then (key, v) :: t else (k, v0) :: dictSet t key v

/-- Association-list removal, modelling del dict item with KeyError
swallowed: remove the binding for the key when present, else no change. -/
def dictErase : List (String × Nat) → String → List (String × Nat)
  | [], _ => []
  | (k, v) :: t, key => if k = key then t else (k, v) :: dictErase t key

/-- Coordinator state: the membership dict, the flag of each watcher
object, the shared results queue, the coordinator running flag, the shared
streaming policy stored by stream(), and the optional exception callback
(given the member identity and the exception; the coordinator argument of
the Python callback is the coordinator itself and carries no information
in this model). -/
structure MuxState where
  watchers : List (String × Nat)
  wflags : Nat → Bool
  queue : List WatchEvent
  run : Bool
  manage_resource_version : Bool
  quit_on_timeout : Bool
  exception_callback : Option (Nat → PyExc → CbRes)

/-- Model of MultiplexingWatcher.__init__: empty membership, a fresh empty
queue, not running, policy flags unset. -/
def initMux (cb : Option (Nat → PyExc → CbRes)) : MuxState :=
  { watchers := []
    wflags := fun _ => false
    queue := []
    run := false
    manage_resource_version := false
    quit_on_timeout := false
    exception_callback := cb }

/-- Model of MultiplexingWatcher.add_watcher (lines 439-457): stop the
current watcher for that kind when one exists, install the new one, and
report which old watcher was stopped and whether the new member was started
immediately (exactly when the coordinator is running). -/
def add_watcher (m : MuxState) (cls : String) (id : Nat) :
    MuxState × Option Nat × Bool :=
  let old := dictGet m.watchers cls
  let f1 := match old with
            | some oldId => setFlagFn m.wflags oldId false
            | none => m.wflags
  ({ m with wflags := f1, watchers := dictSet m.watchers cls id }, old, m.run)

/-- Model of MultiplexingWatcher.del_watcher (lines 459-469): stop the
watcher, then delete its kind's binding, swallowing a missing key. -/
def del_watcher (m : MuxState) (w : MemberW) : MuxState :=
  { m with wflags := setFlagFn m.wflags w.id false
           watchers := dictErase m.watchers w.cls }

/-- Sequentially set a list of member flags to false. -/
def stopFlags (f : Nat → Bool) : List Nat → (Nat → Bool)
  | [] => f
  | i :: t => stopFlags (setFlagFn f i false) t

/-- Model of MultiplexingWatcher.stop (lines 471-477): flip the running
flag and stop every member of a snapshot of the membership; also report the
snapshot of members stopped. Nothing else changes. -/
def MuxState.stop (m : MuxState) : MuxState × List Nat :=
  let snapshot := m.watchers.map Prod.snd
  ({ m with run := false, wflags := stopFlags m.wflags snapshot }, snapshot)

/-- Model of the entry of MultiplexingWatcher.stream (lines 511-515):
store the two policy flags, mark running, and start one worker per member
of a snapshot of the membership (reported as the started list). -/
def streamStart (m : MuxState) (mrv qot : Bool) : MuxState × List Nat :=
  ({ m with manage_resource_version := mrv, quit_on_timeout := qot, run := true },
   m.watchers.map Prod.snd)

/-- Flag computed by the worker's exception handler (lines 425-433): the
callback's return value, with a missing callback or a callback that raises
standing for None; the handler then compares it with True by identity. -/
def cbFlagIsTrue (cb : Option (Nat → PyExc → CbRes)) (wid : Nat) (e : PyExc) : Bool :=
  match cb with
  | none => false
  | some f =>
    match f wid e with
    | .isTrue => true
    | .notTrue => false
    | .raised => false

/-- How one invocation of the member's stream() ends, as the worker sees
it: normal completion, or an exception. -/
inductive StreamEnd where
  | normal
  | exc (e : PyExc)
deriving DecidableEq

/-- One invocation of the member's stream() inside the worker loop: the
events it yields (in order) and how it ends. -/
structure RunAttempt where
  events : List WatchEvent
  ending : StreamEnd
deriving DecidableEq

/-- Model of MultiplexingWatcher._run_watcher (lines 415-437), the worker
loop driving one member. Each loop iteration invokes the member's stream()
(which marks the member running), pushes every yielded event onto the
shared queue while both the member and the coordinator are running, stops
the member on a normal end under quit_on_timeout, and on an exception stops
the member unless the callback flag is the value True. When the guard
fails, the worker removes the member via del_watcher. Returns the final
coordinator state and whether the model ran out of attempts while the loop
was still live (true) rather than terminating (false). -/
def runWatcherAux (w : MemberW) : MuxState → Bool → List RunAttempt → MuxState × Bool
  | m, watcher_running, attempts =>
    if watcher_running = true ∧ m.run = true then
      match attempts with
      | [] => (m, true)
      | a :: rest =>
        let m1 := { m with wflags := setFlagFn m.wflags w.id true }
        let m2 := { m1 with
                    queue := m1.queue ++
                      (if m1.wflags w.id = true ∧ m1.run = true then a.events else []) }
        let m3 := match a.ending with
          | .normal =>
            if m2.quit_on_timeout = true
            then { m2 with wflags := setFlagFn m2.wflags w.id false } else m2
          | .exc e =>
            if cbFlagIsTrue m2.exception_callback w.id e = true then m2
            else { m2 with wflags := setFlagFn m2.wflags w.id false }
        runWatcherAux w m3 (m3.wflags w.id) rest
    else (del_watcher m w, false)

/-- World steps interleaving with the coordinator's consuming loop: a
worker pushes an event, the running flag or the membership is changed by a
concurrent operation, or the consuming loop wakes for one iteration (guard
check, then a bounded-wait dequeue that may come back empty). -/
inductive MuxStep where
  | push (e : WatchEvent)
  | setRun (b : Bool)
  | setWatchers (ws : List (String × Nat))
  | wake

/-- The shared state the consuming loop reads. -/
structure ConsumeState where
  run : Bool
  watchers : List (String × Nat)
  queue : List WatchEvent
deriving DecidableEq

/-- Result of driving the consuming loop through a schedule of steps. -/
structure ConsumeResult where
  yielded : List WatchEvent
  exited : Bool
  final : ConsumeState
deriving DecidableEq

/-- Model of the consuming loop of MultiplexingWatcher.stream (lines
517-523) driven by a schedule of world steps. Each wake is one iteration:
while the guard (running and membership nonempty) holds the loop dequeues
at most one item and yields it (an empty queue is the bounded-wait timeout,
silently retried); once the guard fails the generator has exited — later
pushes still land in the persistent queue, later wakes do nothing. -/
def muxConsume : ConsumeState → Bool → List MuxStep → ConsumeResult
  | s, exited, [] => ⟨[], exited, s⟩
  | s, exited, .push e :: rest => muxConsume { s with queue := s.queue ++ [e] } exited rest
  | s, exited, .setRun b :: rest => muxConsume { s with run := b } exited rest
  | s, exited, .setWatchers ws :: rest => muxConsume { s with watchers := ws } exited rest
  | s, exited, .wake :: rest =>
    if exited = true then muxConsume s true rest
    else if s.run = true ∧ s.watchers ≠ [] then
      match s.queue with
      | [] => muxConsume s false rest
      | e :: q =>
        let r := muxConsume { s with queue := q } false rest
        ⟨e :: r.yielded, r.exited, r.final⟩
    else muxConsume s true rest

/-- The events pushed by a schedule, in order. -/
def pushesOf : List MuxStep → List WatchEvent
  | [] => []
  | .push e :: rest => e :: pushesOf rest
  | _ :: rest => pushesOf rest

/-! ### Fixtures for concrete runs -/

/-- Fixture descriptor for concrete runs. -/
def wdFix : WatcherDescriptor :=
  ⟨"kubernetes.client", ".api.core_v1_api", "CoreV1Api", "list_pod_for_all_namespaces"⟩

/-- Fixture watcher for kind Pod, fresh from construction: no cursor, not
running, highest observed version at the starting value. -/
def watcherFix : Watcher := ⟨wdFix, "Pod", none, some 1, none, false, -1⟩

/-- Fixture coordinator with two members, running. -/
def muxFix : MuxState :=
  ⟨[("Pod", 1), ("Node", 2)], fun _ => true, [], true, false, false, none⟩

/-! ### Claim C8 -/

/-- Claim C8, counterexample: updateCursor does not fail on the empty
string — update_resource_version only rejects None, so the empty string is
accepted and an empty cursor is installed, refuting that the operation
fails whenever its argument is empty and never installs an empty value. -/
theorem update_rv_empty_string_cex :
    update_resource_version watcherFix (some (.str "")) =
      .ok { watcherFix with resource_version := some "" } := by
  rfl

/-- Claim C8, amended: the cursor-update operation fails exactly when its
argument is unset (None); every provided value, including the empty string,
is installed as its string form, which currentCursor then returns. -/
theorem update_rv_spec (w : Watcher) (u : PyStrOrInt) :
    update_resource_version w none = .error "resource_version cannot be None"
    ∧ update_resource_version w (some u) =
        .ok { w with resource_version := some (pyStrOfUnion u) }
    ∧ current_resource_version { w with resource_version := some (pyStrOfUnion u) } =
        some (pyStrOfUnion u) :=
  ⟨rfl, rfl, rfl⟩

/-! ### Claim C9 -/

theorem stopFlags_eq (l : List Nat) : ∀ f i, stopFlags f l i = if i ∈ l then false else f i := by
  induction l with
  | nil => intro f i; simp [stopFlags]
  | cons a t ih =>
    intro f i
    rw [stopFlags, ih]
    by_cases h : i ∈ t
    · simp [h]
    · by_cases h2 : i = a
      · subst h2; simp [h, setFlagFn]
      · simp [h, h2, setFlagFn, List.mem_cons]

/-- Claim C9: stop() flips the coordinator's running flag to false and
stops exactly the members of the current membership snapshot, and changes
nothing else — membership, the queue contents, the stored policy flags, the
callback, and the flag of every non-member watcher are all untouched. -/
theorem mux_stop_spec (m : MuxState) :
    (MuxState.stop m).1.run = false
    ∧ (MuxState.stop m).2 = m.watchers.map Prod.snd
    ∧ (MuxState.stop m).1.watchers = m.watchers
    ∧ (MuxState.stop m).1.queue = m.queue
    ∧ (MuxState.stop m).1.manage_resource_version = m.manage_resource_version
    ∧ (MuxState.stop m).1.quit_on_timeout = m.quit_on_timeout
    ∧ (MuxState.stop m).1.exception_callback = m.exception_callback
    ∧ (∀ i, i ∈ m.watchers.map Prod.snd → (MuxState.stop m).1.wflags i = false)
    ∧ (∀ i, i ∉ m.watchers.map Prod.snd → (MuxState.stop m).1.wflags i = m.wflags i) := by
  refine ⟨rfl, rfl, rfl, rfl, rfl, rfl, rfl, ?_, ?_⟩
  · intro i hi
    show stopFlags m.wflags (m.watchers.map Prod.snd) i = false
    rw [stopFlags_eq]
    simp [hi]
  · intro i hi
    show stopFlags m.wflags (m.watchers.map Prod.snd) i = m.wflags i
    rw [stopFlags_eq]
    simp [hi]

/-- Witness for mux_stop_spec at a concrete coordinator. -/
theorem mux_stop_spec_witness :
    (MuxState.stop muxFix).1.run = false
    ∧ (MuxState.stop muxFix).1.wflags 1 = false
    ∧ (MuxState.stop muxFix).1.wflags 7 = true := by
  refine ⟨(mux_stop_spec muxFix).1, ?_, ?_⟩
  · exact (mux_stop_spec muxFix).2.2.2.2.2.2.2.1 1 (by decide)
  · exact ((mux_stop_spec muxFix).2.2.2.2.2.2.2.2 7 (by decide)).trans rfl

/-! ### Claim C10 -/

theorem muxConsume_fifo : ∀ (steps : List MuxStep) (s : ConsumeState) (ex : Bool),
    (muxConsume s ex steps).yielded ++ (muxConsume s ex steps).final.queue
      = s.queue ++ pushesOf steps := by
  intro steps
  induction steps with
  | nil => intro s ex; simp [muxConsume, pushesOf]
  | cons a rest ih =>
    intro s ex
    cases a with
    | push e =>
      have h2 := ih { s with queue := s.queue ++ [e] } ex
      simp only [muxConsume, pushesOf]
      simp at h2
      simp [h2]
    | setRun b =>
      have h2 := ih { s with run := b } ex
      simpa [muxConsume, pushesOf] using h2
    | setWatchers ws =>
      have h2 := ih { s with watchers := ws } ex
      simpa [muxConsume, pushesOf] using h2
    | wake =>
      cases ex with
      | true => simpa [muxConsume, pushesOf] using ih s true
      | false =>
        by_cases hg : s.run = true ∧ s.watchers ≠ []
        · cases hq : s.queue with
          | nil =>
            have h2 := ih s false
            rw [hq] at h2
            simp [muxConsume, hg, hq, pushesOf, h2]
          | cons e q =>
            obtain ⟨hr, hw⟩ := hg
            have h2 := ih { s with queue := q } false
            simp only [hr] at h2 ⊢
            simp [muxConsume, hr, hw, hq, pushesOf, h2]
        · have h2 := ih s true
          simp [muxConsume, hg, pushesOf, h2]

/-- Claim C10: the shared queue starts empty at construction and no
coordinator operation clears it — add, delete, stop and the entry of
stream() all leave the queue contents untouched — and the consuming loop is
FIFO over the persistent queue: across any schedule of pushes, stops,
membership changes and loop wakeups, the yielded events followed by the
remaining queue equal the initially-retained queue followed by the pushes
in order, so retained events are always yielded ahead of newly produced
ones by a subsequent consuming loop. -/
theorem queue_persistence :
    (∀ cb, (initMux cb).queue = [])
    ∧ (∀ m cls id, (add_watcher m cls id).1.queue = m.queue)
    ∧ (∀ m w, (del_watcher m w).queue = m.queue)
    ∧ (∀ m, (MuxState.stop m).1.queue = m.queue)
    ∧ (∀ m mrv qot, (streamStart m mrv qot).1.queue = m.queue)
    ∧ (∀ s ex steps, (muxConsume s ex steps).yielded ++ (muxConsume s ex steps).final.queue
        = s.queue ++ pushesOf steps) :=
  ⟨fun _ => rfl, fun _ _ _ => rfl, fun _ _ => rfl, fun _ => rfl, fun _ _ _ => rfl,
   fun s ex steps => muxConsume_fifo steps s ex⟩

/-! ### Claim C4 -/

/-- Variant support in the words of the claim: the requested variant is
namespaced when a namespace is given (whatever its value), cluster-wide
otherwise. This follows the claim's wording, for comparison with the
truthiness-based selection the code performs. -/
def claimVariantSupported (cls : KindCls) (ns : Option String) : Bool :=
  match ns with
  | some _ => (effectiveSupport cls).namespaced_watcher.isSome
  | none => (effectiveSupport cls).watcher.isSome

/-- Fixture kind supporting only namespaced watches. -/
def kindNsOnly : KindCls :=
  ⟨"CSIStorageCapacity", true, none, ⟨some wdFix, none⟩⟩

/-- Fixture kind supporting only cluster-wide watches. -/
def kindClusterOnly : KindCls := ⟨"Node", true, none, ⟨none, some wdFix⟩⟩

/-- Claim C4, counterexample: with an empty-string namespace the claimed
variant (namespaced, since a namespace is given) is supported by this kind,
yet construction fails — the code selects the variant by Python truthiness,
so an empty namespace requests the cluster-wide watcher, which this kind
lacks. -/
theorem variant_check_empty_namespace_cex :
    claimVariantSupported kindNsOnly (some "") = true
    ∧ watcherInit kindNsOnly (some "") none none =
        .error "CSIStorageCapacity has no watcher support" :=
  ⟨rfl, rfl⟩

/-- Claim C4, amended: for every kind (HikaruDocumentBase subclass),
construction succeeds exactly when the effective capability table has the
requested variant, where the variant is namespaced exactly when the given
namespace is truthy — non-None and non-empty; an empty-string namespace
requests the cluster-wide variant. Within this domain the variant check is
the only construction-time failure. -/
theorem watcherInit_ok_iff (cls : KindCls) (ns : Option String) (rv : Option PyStrOrInt)
    (t : Option Int) (hk : cls.isHikaruDocSubclass = true) :
    (∃ w, watcherInit cls ns rv t = .ok w) ↔
      (if pyTruthyStr ns = true then (effectiveSupport cls).namespaced_watcher.isSome
       else (effectiveSupport cls).watcher.isSome) = true := by
  by_cases ht : pyTruthyStr ns = true
  · cases hnw : (effectiveSupport cls).namespaced_watcher with
    | none => simp [watcherInit, hk, ht, hnw]
    | some d => simp [watcherInit, hk, ht, hnw]
  · cases hw : (effectiveSupport cls).watcher with
    | none => simp [watcherInit, hk, ht, hw]
    | some d => simp [watcherInit, hk, ht, hw]

/-- Witness for watcherInit_ok_iff at a concrete kind: a kind supporting
the cluster-wide variant constructs successfully with no namespace. -/
theorem watcherInit_ok_iff_witness :
    ∃ w, watcherInit kindClusterOnly none none none = .ok w :=
  (watcherInit_ok_iff kindClusterOnly none none none rfl).mpr (by decide)

/-! ### Claim C5 -/

theorem dictGet_dictSet_self (l : List (String × Nat)) (k : String) (v : Nat) :
    dictGet (dictSet l k v) k = some v := by
  induction l with
  | nil => simp [dictSet, dictGet]
  | cons p t ih =>
    obtain ⟨k0, v0⟩ := p
    by_cases h : k0 = k
    · subst h; simp [dictSet, dictGet]
    · simp [dictSet, dictGet, h, ih]

theorem dictGet_dictSet_ne (l : List (String × Nat)) (k k2 : String) (v : Nat)
    (h : k2 ≠ k) : dictGet (dictSet l k v) k2 = dictGet l k2 := by
  induction l with
  | nil => simp [dictSet, dictGet, Ne.symm h]
  | cons p t ih =>
    obtain ⟨k0, v0⟩ := p
    by_cases h0 : k0 = k
    · subst h0; simp [dictSet, dictGet, Ne.symm h]
    · by_cases h2 : k0 = k2 <;> simp [dictSet, dictGet, h0, h2, h, ih]

theorem mem_keys_dictSet (l : List (String × Nat)) (k a : String) (v : Nat) :
    a ∈ (dictSet l k v).map Prod.fst ↔ a ∈ l.map Prod.fst ∨ a = k := by
  induction l with
  | nil => simp [dictSet]
  | cons p t ih =>
    obtain ⟨k0, v0⟩ := p
    by_cases h : k0 = k
    · subst h; simp [dictSet]; tauto
    · simp [dictSet, h, ih]; tauto

theorem nodup_keys_dictSet (l : List (String × Nat)) (k : String) (v : Nat)
    (h : (l.map Prod.fst).Nodup) : ((dictSet l k v).map Prod.fst).Nodup := by
  induction l with
  | nil => simp [dictSet]
  | cons p t ih =>
    obtain ⟨k0, v0⟩ := p
    rw [List.map_cons, List.nodup_cons] at h
    by_cases hk : k0 = k
    · subst hk
      have hset : dictSet ((k0, v0) :: t) k0 v = (k0, v) :: t := by simp [dictSet]
      rw [hset, List.map_cons, List.nodup_cons]
      exact h
    · have hset : dictSet ((k0, v0) :: t) k v = (k0, v0) :: dictSet t k v := by
        simp [dictSet, hk]
      rw [hset, List.map_cons, List.nodup_cons]
      constructor
      · rw [mem_keys_dictSet]
        intro hc
        rcases hc with h2 | h2
        · exact h.1 h2
        · exact hk h2
      · exact ih h.2

/-- Claim C5: add(watcher) first stops the existing watcher registered for
the same kind when there is one, then installs the new one in its place,
leaving every other kind's binding untouched and preserving at-most-one
watcher per kind; the new member is reported started immediately exactly
when the coordinator is streaming. The queue and the running flag are
unaffected. -/
theorem add_watcher_spec (m : MuxState) (cls : String) (id : Nat)
    (hnd : (m.watchers.map Prod.fst).Nodup) :
    (add_watcher m cls id).2.1 = dictGet m.watchers cls
    ∧ (∀ o, dictGet m.watchers cls = some o → (add_watcher m cls id).1.wflags o = false)
    ∧ dictGet (add_watcher m cls id).1.watchers cls = some id
    ∧ (∀ k, k ≠ cls → dictGet (add_watcher m cls id).1.watchers k = dictGet m.watchers k)
    ∧ ((add_watcher m cls id).1.watchers.map Prod.fst).Nodup
    ∧ (add_watcher m cls id).2.2 = m.run
    ∧ (add_watcher m cls id).1.queue = m.queue
    ∧ (add_watcher m cls id).1.run = m.run := by
  refine ⟨rfl, ?_, ?_, ?_, ?_, rfl, rfl, rfl⟩
  · intro o ho
    show (match dictGet m.watchers cls with
          | some oldId => setFlagFn m.wflags oldId false
          | none => m.wflags) o = false
    rw [ho]
    simp [setFlagFn]
  · exact dictGet_dictSet_self m.watchers cls id
  · intro k hk
    exact dictGet_dictSet_ne m.watchers cls k id hk
  · exact nodup_keys_dictSet m.watchers cls id hnd

/-- Witness for add_watcher_spec at a concrete coordinator: re-adding a
watcher for the already-registered kind Pod replaces and stops the old one
and is started immediately since the coordinator is streaming. -/
theorem add_watcher_spec_witness :
    dictGet (add_watcher muxFix "Pod" 5).1.watchers "Pod" = some 5
    ∧ (add_watcher muxFix "Pod" 5).1.wflags 1 = false
    ∧ (add_watcher muxFix "Pod" 5).2.2 = true := by
  have h := add_watcher_spec muxFix "Pod" 5 (by decide)
  exact ⟨h.2.2.1, h.2.1 1 (by decide), h.2.2.2.2.2.1⟩

/-! ### Claims C2 and C7 -/

theorem runWatcherAux_step (w : MemberW) (m : MuxState) (a : RunAttempt)
    (rest : List RunAttempt) (hrun : m.run = true) :
    runWatcherAux w m true (a :: rest) =
      (let m2 : MuxState :=
        { m with wflags := setFlagFn m.wflags w.id true, queue := m.queue ++ a.events }
       let m3 : MuxState := match a.ending with
         | .normal =>
           if m2.quit_on_timeout = true
           then { m2 with wflags := setFlagFn m2.wflags w.id false } else m2
         | .exc e =>
           if cbFlagIsTrue m2.exception_callback w.id e = true then m2
           else { m2 with wflags := setFlagFn m2.wflags w.id false }
       runWatcherAux w m3 (m3.wflags w.id) rest) := by
  conv_lhs => rw [runWatcherAux.eq_def]
  simp [hrun, setFlagFn]

theorem runWatcherAux_exit (w : MemberW) (m : MuxState) (wr : Bool)
    (attempts : List RunAttempt) (h : wr = false ∨ m.run = false) :
    runWatcherAux w m wr attempts = (del_watcher m w, false) := by
  rw [runWatcherAux.eq_def]
  have hng : ¬(wr = true ∧ m.run = true) := by
    rcases h with h | h <;> simp [h]
  simp only [if_neg hng]

/-- Claim C2: when a member's stream raises while the coordinator is
running and a failure policy callback is installed, the worker consults the
callback; exactly when it returns the continue signal (the Python value
True) the member's stream loop is restarted with the member still running
and membership untouched, and for any other return value — or when the
callback itself raises — the member is stopped, removed from membership,
and that worker ends, the events delivered before the failure having been
pushed to the shared queue. -/
theorem worker_exception_policy (m : MuxState) (w : MemberW)
    (cb : Nat → PyExc → CbRes) (e : PyExc) (evs : List WatchEvent)
    (rest : List RunAttempt) (hrun : m.run = true)
    (hcb : m.exception_callback = some cb) :
    (cb w.id e = .isTrue →
      runWatcherAux w m true (⟨evs, .exc e⟩ :: rest) =
        runWatcherAux w
          { m with wflags := setFlagFn m.wflags w.id true, queue := m.queue ++ evs }
          true rest
      ∧ ({ m with wflags := setFlagFn m.wflags w.id true,
                  queue := m.queue ++ evs } : MuxState).watchers = m.watchers)
    ∧ (cb w.id e ≠ .isTrue →
        (runWatcherAux w m true (⟨evs, .exc e⟩ :: rest)).2 = false
        ∧ (runWatcherAux w m true (⟨evs, .exc e⟩ :: rest)).1.watchers
            = dictErase m.watchers w.cls
        ∧ (runWatcherAux w m true (⟨evs, .exc e⟩ :: rest)).1.wflags w.id = false
        ∧ (runWatcherAux w m true (⟨evs, .exc e⟩ :: rest)).1.queue = m.queue ++ evs) := by
  have hstep := runWatcherAux_step w m ⟨evs, .exc e⟩ rest hrun
  constructor
  · intro hflag
    refine ⟨?_, rfl⟩
    rw [hstep]
    simp [cbFlagIsTrue, hcb, hflag, setFlagFn]
  · intro hflag
    have hflagv : cbFlagIsTrue m.exception_callback w.id e = false := by
      rw [hcb]
      cases hres : cb w.id e with
      | isTrue => exact absurd hres hflag
      | notTrue => simp [cbFlagIsTrue, hres]
      | raised => simp [cbFlagIsTrue, hres]
    rw [hstep]
    simp only [hflagv]
    rw [runWatcherAux_exit]
    · simp [del_watcher, setFlagFn]
    · left
      simp [setFlagFn]

/-- Fixture coordinator for worker runs: streaming with quit_on_timeout
set and no callback, one member of kind Pod. -/
def muxQot : MuxState := ⟨[("Pod", 1)], fun _ => true, [], true, false, true, none⟩

/-- Fixture coordinator for worker runs: streaming, with a callback that
always returns True. -/
def muxCont : MuxState :=
  ⟨[("Pod", 1)], fun _ => true, [], true, false, false, some (fun _ _ => CbRes.isTrue)⟩

/-- Fixture event delivered by a member stream. -/
def evFixC2 : WatchEvent := ⟨"ADDED", ⟨"ADDED", 9⟩⟩

/-- Witness for worker_exception_policy at a concrete coordinator: with an
always-continue callback a failing attempt restarts the loop with the
member still registered, and with the same state viewed under a
never-continue outcome the member is dropped. -/
theorem worker_exception_policy_witness :
    (runWatcherAux ⟨"Pod", 1⟩ muxCont true [⟨[evFixC2], .exc (.other "boom")⟩] =
      runWatcherAux ⟨"Pod", 1⟩
        { muxCont with wflags := setFlagFn muxCont.wflags 1 true,
                       queue := muxCont.queue ++ [evFixC2] } true []
      ∧ ({ muxCont with wflags := setFlagFn muxCont.wflags 1 true,
                        queue := muxCont.queue ++ [evFixC2] } : MuxState).watchers
          = muxCont.watchers) := by
  exact (worker_exception_policy muxCont ⟨"Pod", 1⟩ (fun _ _ => CbRes.isTrue)
    (.other "boom") [evFixC2] [] rfl rfl).1 rfl

/-- Claim C7, counterexample: the single member's stream ends without
error — a routine quit-on-timeout end, no exception raised — yet the worker
removes it from membership: the worker's del_watcher cleanup runs on every
worker termination, not only after a terminal failure. -/
theorem worker_removes_after_clean_end_cex :
    (runWatcherAux ⟨"Pod", 1⟩ muxQot true [⟨[], .normal⟩]).1.watchers = []
    ∧ (runWatcherAux ⟨"Pod", 1⟩ muxQot true [⟨[], .normal⟩]).2 = false
    ∧ muxQot.watchers = [("Pod", 1)] :=
  ⟨rfl, rfl, rfl⟩

/-- Claim C7, amended: a membership entry is destroyed by an explicit
delete or by its worker's cleanup, and that cleanup runs whenever the
worker terminates — a member whose stream ends without error under
quitOnTimeout is stopped and removed from membership by its worker, and a
worker whose guard fails (member stopped or coordinator stopped) likewise
removes its member on the way out. -/
theorem worker_cleanup_on_termination (m : MuxState) (w : MemberW)
    (evs : List WatchEvent) (rest attempts : List RunAttempt)
    (hrun : m.run = true) (hq : m.quit_on_timeout = true) :
    runWatcherAux w m true (⟨evs, .normal⟩ :: rest) =
      (del_watcher
        { m with wflags := setFlagFn (setFlagFn m.wflags w.id true) w.id false,
                 queue := m.queue ++ evs } w, false)
    ∧ (∀ (wr : Bool) (m2 : MuxState), wr = false ∨ m2.run = false →
        runWatcherAux w m2 wr attempts = (del_watcher m2 w, false)) := by
  constructor
  · rw [runWatcherAux_step w m ⟨evs, .normal⟩ rest hrun]
    simp only [hq, if_pos rfl]
    rw [runWatcherAux_exit]
    · simp [setFlagFn]
    · left
      simp [setFlagFn]
  · intro wr m2 h
    exact runWatcherAux_exit w m2 wr attempts h

/-- Witness for worker_cleanup_on_termination at a concrete coordinator. -/
theorem worker_cleanup_on_termination_witness :
    runWatcherAux ⟨"Pod", 1⟩ muxQot true [⟨[], .normal⟩] =
      (del_watcher
        { muxQot with wflags := setFlagFn (setFlagFn muxQot.wflags 1 true) 1 false,
                      queue := muxQot.queue ++ [] } ⟨"Pod", 1⟩, false) :=
  (worker_cleanup_on_termination muxQot ⟨"Pod", 1⟩ [] [] [] rfl rfl).1

/-! ### Claim C6 -/

/-- Claim C6, counterexample: the coordinator is running and an event is
still queued, but membership is empty — one wakeup of the consuming loop
finds its guard false and the merged sequence terminates immediately,
yielding nothing: the loop does terminate while the coordinator is running
merely because membership has become empty. -/
theorem mux_loop_exits_on_empty_membership_cex :
    muxConsume ⟨true, [], [evFixC2]⟩ false [MuxStep.wake] =
      ⟨[], true, ⟨true, [], [evFixC2]⟩⟩ :=
  rfl

theorem muxConsume_exited_no_yield : ∀ (steps : List MuxStep) (s : ConsumeState),
    (muxConsume s true steps).yielded = [] := by
  intro steps
  induction steps with
  | nil => intro s; rfl
  | cons a rest ih =>
    intro s
    cases a with
    | push e => simpa [muxConsume] using ih _
    | setRun b => simpa [muxConsume] using ih _
    | setWatchers ws => simpa [muxConsume] using ih _
    | wake => simpa [muxConsume] using ih s

/-- Claim C6, amended: the merged sequence repeatedly performs a
bounded-wait dequeue and yields each dequeued item, and at each iteration
it terminates exactly when the guard fails — that is, when the coordinator's
running flag is false or membership is empty; in particular it does
terminate, even while the coordinator is running, once membership becomes
empty, and after exiting it yields nothing more. While the guard holds it
dequeues at most one item per wakeup, retrying silently on an empty queue. -/
theorem mux_consume_guard (s : ConsumeState) (rest : List MuxStep) :
    ((s.run = false ∨ s.watchers = []) →
       muxConsume s false (.wake :: rest) = muxConsume s true rest
       ∧ (muxConsume s true rest).yielded = [])
    ∧ (s.run = true → s.watchers ≠ [] →
        (s.queue = [] → muxConsume s false (.wake :: rest) = muxConsume s false rest)
        ∧ (∀ e q, s.queue = e :: q →
            muxConsume s false (.wake :: rest) =
              ⟨e :: (muxConsume { s with queue := q } false rest).yielded,
               (muxConsume { s with queue := q } false rest).exited,
               (muxConsume { s with queue := q } false rest).final⟩)) := by
  constructor
  · intro hg
    have hng : ¬(s.run = true ∧ s.watchers ≠ []) := by
      rcases hg with h | h <;> simp [h]
    constructor
    · rw [muxConsume]
      simp only [Bool.false_eq_true, if_false, if_neg hng]
    · exact muxConsume_exited_no_yield rest s
  · intro hr hw
    constructor
    · intro hq
      rw [muxConsume]
      simp only [Bool.false_eq_true, if_false, hq]
      rw [if_pos (And.intro hr hw)]
    · intro e q hq
      rw [muxConsume]
      simp only [Bool.false_eq_true, if_false, hq]
      rw [if_pos (And.intro hr hw)]

/-- Witness for mux_consume_guard at concrete states: a running
coordinator with a member dequeues and yields the queued event, and a
stopped coordinator terminates at once. -/
theorem mux_consume_guard_witness :
    muxConsume ⟨true, [("Pod", 1)], [evFixC2]⟩ false [MuxStep.wake] =
      ⟨[evFixC2],
       (muxConsume ⟨true, [("Pod", 1)], []⟩ false []).exited,
       (muxConsume ⟨true, [("Pod", 1)], []⟩ false []).final⟩
    ∧ muxConsume ⟨false, [("Pod", 1)], []⟩ false [MuxStep.wake] =
        muxConsume ⟨false, [("Pod", 1)], []⟩ true [] := by
  constructor
  · have h := ((mux_consume_guard ⟨true, [("Pod", 1)], [evFixC2]⟩ []).2
      rfl (by decide)).2 evFixC2 [] rfl
    simpa using h
  · exact ((mux_consume_guard ⟨false, [("Pod", 1)], []⟩ []).1 (Or.inl rfl)).1

/-! ### Claims C3 and C1 -/

theorem streamLoop_not_running (cfg : StreamConfig) (w : Watcher)
    (resps : List TransportResponse) (hr : ¬(w.run = true)) :
    streamLoop cfg w resps = ⟨[], [], w, .ended⟩ := by
  rw [streamLoop.eq_def]
  simp [hr]

theorem streamLoop_adv_fail (cfg : StreamConfig) (w : Watcher)
    (resps : List TransportResponse) (hr : w.run = true)
    (hadv : cursorAdvance cfg w = none) :
    streamLoop cfg w resps = ⟨[], [], w, .valueError⟩ := by
  rw [streamLoop.eq_def]
  simp [hr, hadv]

theorem streamLoop_nil (cfg : StreamConfig) (w w1 : Watcher) (hr : w.run = true)
    (hadv : cursorAdvance cfg w = some w1) :
    streamLoop cfg w [] = ⟨[], [], w1, .outOfResponses⟩ := by
  rw [streamLoop.eq_def]
  simp [hr, hadv]

theorem streamLoop_cons (cfg : StreamConfig) (w w1 : Watcher) (r : TransportResponse)
    (rest : List TransportResponse) (hr : w.run = true)
    (hadv : cursorAdvance cfg w = some w1) :
    streamLoop cfg w (r :: rest) =
      (let lg : OpenLog := ⟨w1.resource_version, w1.highest_resource_version, false⟩
       let pe := processEvents w1 r.events
       match r.ending with
       | .timeout =>
         if pe.1.run = true then
           if cfg.quit_on_timeout = true then ⟨[lg], pe.2, pe.1, .ended⟩
           else consLog lg pe.2 (streamLoop cfg pe.1 rest)
         else ⟨[lg], pe.2, pe.1, .ended⟩
       | .err e =>
         if e.status = 410 ∧ cfg.manage_resource_version = true then
           match findParenNum e.reason with
           | some num =>
             consLog lg pe.2 (streamLoop cfg { pe.1 with resource_version := some num } rest)
           | none => ⟨[lg], pe.2, pe.1, .fatal e⟩
         else ⟨[lg], pe.2, pe.1, .fatal e⟩) := by
  conv_lhs => rw [streamLoop.eq_def]
  simp [hr, hadv]

/-- Claim C3: while a cursor-managing stream is looping, a history-gone
transport error (status 410) whose reason embeds a parenthesized number
updates the cursor to exactly that number and the loop continues into the
remaining responses without raising, the events delivered before the error
still yielded; when the reason embeds no parenthesized number the error
propagates to the caller as fatal. -/
theorem history_gone_recovery (cfg : StreamConfig) (w w1 : Watcher) (evs : List RawEvent)
    (e : ApiException) (rest : List TransportResponse)
    (hm : cfg.manage_resource_version = true) (hr : w.run = true)
    (hadv : cursorAdvance cfg w = some w1) (hs : e.status = 410) :
    (∀ num, findParenNum e.reason = some num →
      streamLoop cfg w (⟨evs, .err e⟩ :: rest) =
        consLog ⟨w1.resource_version, w1.highest_resource_version, false⟩
          (processEvents w1 evs).2
          (streamLoop cfg { (processEvents w1 evs).1 with resource_version := some num } rest)
      ∧ ({ (processEvents w1 evs).1 with resource_version := some num }
          : Watcher).resource_version = some num)
    ∧ (findParenNum e.reason = none →
        streamLoop cfg w (⟨evs, .err e⟩ :: rest) =
          ⟨[⟨w1.resource_version, w1.highest_resource_version, false⟩],
            (processEvents w1 evs).2, (processEvents w1 evs).1, .fatal e⟩) := by
  have hstep := streamLoop_cons cfg w w1 ⟨evs, .err e⟩ rest hr hadv
  constructor
  · intro num hnum
    refine ⟨?_, rfl⟩
    rw [hstep]
    simp [hs, hm, hnum]
  · intro hnone
    rw [hstep]
    simp [hs, hm, hnone]

/-- Fixture watcher mid-stream: running, cursor set to the string five. -/
def wFixRun : Watcher := { watcherFix with run := true, resource_version := some "5" }

/-- Witness for history_gone_recovery at the concrete reason text of the
specification: the cursor becomes the string of digits one-two-three-four-
five and the loop continues. -/
theorem history_gone_recovery_witness :
    (streamLoop ⟨true, false⟩ wFixRun
        [⟨[], .err ⟨410, "Expired: past history (12345)"⟩⟩] =
      consLog ⟨wFixRun.resource_version, wFixRun.highest_resource_version, false⟩
        (processEvents wFixRun []).2
        (streamLoop ⟨true, false⟩
          { (processEvents wFixRun []).1 with resource_version := some "12345" } []))
    ∧ ({ (processEvents wFixRun []).1 with resource_version := some "12345" }
        : Watcher).resource_version = some "12345" :=
  (history_gone_recovery ⟨true, false⟩ wFixRun wFixRun []
    ⟨410, "Expired: past history (12345)"⟩ [] rfl rfl rfl rfl).1 "12345" rfl

theorem cursorAdvance_spec (cfg : StreamConfig) (w w1 : Watcher)
    (hm : cfg.manage_resource_version = true) (h : cursorAdvance cfg w = some w1) :
    ∀ s, w1.resource_version = some s →
      ∃ v, pyInt? s = some v ∧ w1.highest_resource_version ≤ v := by
  unfold cursorAdvance at h
  rw [if_pos hm] at h
  cases hrv : w.resource_version with
  | none =>
    rw [hrv] at h
    dsimp only at h
    injection h with h
    subst h
    intro s hs
    rw [hrv] at hs
    cases hs
  | some s0 =>
    rw [hrv] at h
    dsimp only at h
    cases hp : pyInt? s0 with
    | none => rw [hp] at h; cases h
    | some v0 =>
      rw [hp] at h
      injection h with h
      by_cases hgt : w.highest_resource_version > v0
      · rw [if_pos hgt] at h
        subst h
        intro s hs
        have hs2 : pyStr w.highest_resource_version = s := by
          injection hs
        refine ⟨w.highest_resource_version, ?_, le_refl _⟩
        rw [← hs2]
        exact pyInt?_pyStr _
      · rw [if_neg hgt] at h
        subst h
        intro s hs
        rw [hrv] at hs
        injection hs with hs
        subst hs
        exact ⟨v0, hp, by omega⟩

theorem streamLoop_cursor_ge (cfg : StreamConfig) (hm : cfg.manage_resource_version = true) :
    ∀ (resps : List TransportResponse) (w : Watcher) (lg : OpenLog),
      lg ∈ (streamLoop cfg w resps).opens → ∀ s, lg.cursor = some s →
      ∃ v, pyInt? s = some v ∧ lg.highestAtOpen ≤ v := by
  intro resps
  induction resps with
  | nil =>
    intro w lg hlg s hs
    by_cases hr : w.run = true
    · cases hadv : cursorAdvance cfg w with
      | none => rw [streamLoop_adv_fail cfg w [] hr hadv] at hlg; simp at hlg
      | some w1 => rw [streamLoop_nil cfg w w1 hr hadv] at hlg; simp at hlg
    · rw [streamLoop_not_running cfg w [] hr] at hlg; simp at hlg
  | cons r rest ih =>
    intro w lg hlg s hs
    by_cases hr : w.run = true
    case neg => rw [streamLoop_not_running cfg w (r :: rest) hr] at hlg; simp at hlg
    cases hadv : cursorAdvance cfg w with
    | none => rw [streamLoop_adv_fail cfg w (r :: rest) hr hadv] at hlg; simp at hlg
    | some w1 =>
      rw [streamLoop_cons cfg w w1 r rest hr hadv] at hlg
      have hhead : ∀ hcur : w1.resource_version = some s,
          ∃ v, pyInt? s = some v ∧ w1.highest_resource_version ≤ v :=
        fun hcur => cursorAdvance_spec cfg w w1 hm hadv s hcur
      obtain ⟨revs, rend⟩ := r
      cases rend with
      | timeout =>
        by_cases hpr : (processEvents w1 revs).1.run = true
        · by_cases hq : cfg.quit_on_timeout = true
          · simp [hpr, hq] at hlg
            subst hlg
            exact hhead hs
          · simp [hpr, hq, consLog] at hlg
            rcases hlg with hlg | hlg
            · subst hlg
              exact hhead hs
            · exact ih (processEvents w1 revs).1 lg hlg s hs
        · simp [hpr] at hlg
          subst hlg
          exact hhead hs
      | err e =>
        by_cases hc : e.status = 410 ∧ cfg.manage_resource_version = true
        · cases hfind : findParenNum e.reason with
          | some num =>
            simp [hc, hfind, consLog] at hlg
            rcases hlg with hlg | hlg
            · subst hlg
              exact hhead hs
            · exact ih { (processEvents w1 revs).1 with resource_version := some num }
                lg hlg s hs
          | none =>
            simp [hc, hfind] at hlg
            subst hlg
            exact hhead hs
        · simp [hc] at hlg
          subst hlg
          exact hhead hs

/-- Claim C1, amended: in a cursor-managing stream, every main-loop
transport open request that carries a cursor carries one whose numeric
value is at least the highest resource version the Watcher has observed at
the moment of the request; only the priming probe is exempt, since it
always carries the version one regardless of the observed maximum. -/
theorem managed_open_cursor_ge_observed (cfg : StreamConfig) (w : Watcher)
    (resps : List TransportResponse) (hm : cfg.manage_resource_version = true) :
    ∀ lg ∈ (streamWatcher cfg w resps).opens, lg.priming = false →
      ∀ s, lg.cursor = some s → ∃ v, pyInt? s = some v ∧ lg.highestAtOpen ≤ v := by
  intro lg hlg hpr s hs
  unfold streamWatcher at hlg
  by_cases hpc : cfg.manage_resource_version = true ∧ (Watcher.start w).resource_version = none
  · rw [if_pos hpc] at hlg
    cases resps with
    | nil => simp at hlg
    | cons r rest =>
      obtain ⟨revs, rend⟩ := r
      by_cases hev : revs = []
      · cases rend with
        | timeout =>
          simp [hev, consLog] at hlg
          rcases hlg with hlg | hlg
          · subst hlg
            simp at hpr
          · exact streamLoop_cursor_ge cfg hm rest (Watcher.start w) lg hlg s hs
        | err e =>
          by_cases hc : e.status = 410 ∧ strStartsWith e.reason "Expired:" = true
          · cases hfind : findParenNum e.reason with
            | some num =>
              simp [hev, hc, hfind, consLog] at hlg
              rcases hlg with hlg | hlg
              · subst hlg
                simp at hpr
              · exact streamLoop_cursor_ge cfg hm rest
                  { Watcher.start w with resource_version := some num } lg hlg s hs
            | none =>
              simp [hev, hc, hfind] at hlg
              subst hlg
              simp at hpr
          · simp [hev, hc] at hlg
            subst hlg
            simp at hpr
      · simp [hev] at hlg
        subst hlg
        simp at hpr
  · rw [if_neg hpc] at hlg
    exact streamLoop_cursor_ge cfg hm resps (Watcher.start w) lg hlg s hs

/-- Witness for managed_open_cursor_ge_observed at a concrete managed run:
the second open of a run that starts at cursor one hundred and observes
version one hundred fifty carries the advanced cursor one hundred fifty,
which is at least the observed maximum at that open. -/
theorem managed_open_cursor_ge_observed_witness :
    ∃ v, pyInt? "150" = some v ∧ (150 : Int) ≤ v := by
  have h := managed_open_cursor_ge_observed ⟨true, false⟩
    { watcherFix with resource_version := some "100" }
    [⟨[⟨"ADDED", 150⟩], .timeout⟩, ⟨[], .timeout⟩] rfl
    ⟨some "150", 150, false⟩ (by decide) rfl "150" rfl
  exact h

/-- Claim-as-stated check on one logged open request: when the request
carries a cursor, its numeric value is at least the highest resource
version observed at the moment of the request. -/
def openRespectsObserved (lg : OpenLog) : Bool :=
  match lg.cursor with
  | none => true
  | some s =>
    match pyInt? s with
    | none => false
    | some v => decide (lg.highestAtOpen ≤ v)

/-- Claim C1, counterexample: a Watcher first streams without cursor
management and observes resourceVersion fifty; after a stop it restarts
with manageCursor enabled and still no cursor set, and the priming probe
it then issues carries the cursor one — an open request lower than the
highest version this same Watcher has itself observed in its event stream,
refuting the claim over all open requests issued after a restart. -/
theorem priming_probe_below_observed_cex :
    ((streamWatcher ⟨true, false⟩
        (Watcher.stop (streamWatcher ⟨false, false⟩ watcherFix
          [⟨[⟨"ADDED", 50⟩], .timeout⟩]).st)
        [⟨[], .err ⟨410, "Expired: past history (60)"⟩⟩]).opens.all
      openRespectsObserved) = false
    ∧ (streamWatcher ⟨false, false⟩ watcherFix
        [⟨[⟨"ADDED", 50⟩], .timeout⟩]).st.highest_resource_version = 50 := by
  constructor
  · decide
  · decide

end Hikaru
